import Mathlib

/-!
Verification of the split-learning model-partition runtime
(`secretflow/ml/nn/sl/backend/tensorflow/sl_base.py`).

Shallow embedding conventions:
* a tensor / numpy array is modelled as a `List Int` of its entries
  (`Tensor`); elementwise tensor multiplication is `elemMul`;
* a value that is dynamically either a single tensor or a python list of
  tensors (the hidden embedding `self.h`) is the tagged type `TFData`;
* python dictionaries with string keys are association lists
  (`List (String × Int)`) with python `dict.update` semantics
  (`dictInsert` / `dictUpdate`, first occurrence wins on lookup);
* python exceptions are the `PyError` type and fallible methods return
  `Except PyError`; on a raised exception the mutated object state is
  dropped (the claims under study only inspect the error itself);
* the mutable fields of `SLBaseTFModel` are the record `SLState`; each
  method is a function from the old state (plus arguments) to
  `Except PyError (new state × result)`.
-/

/-- A tensor (or numpy array) is modelled by the list of its entries. -/
def Tensor : Type := List Int

instance : DecidableEq Tensor := by
  unfold Tensor
  infer_instance

instance : Inhabited Tensor := ⟨([] : List Int)⟩

/-- Elementwise tensor multiplication, the meaning of `upstream * y` and of
`d.multiply(m)` on same-shaped tensors. -/
def elemMul (a b : Tensor) : Tensor :=
  List.zipWith (fun x y => x * y) a b

/-- A value that is dynamically either one tensor or a python list of
tensors; this is the shape of the stored embedding `self.h`. -/
inductive TFData where
  | tensor (t : Tensor)
  | list (l : List Tensor)
  deriving DecidableEq

/-- Python exceptions raised by the code under study. -/
inductive PyError where
  | exceptionMsg (msg : String)
  | assertionError (msg : String)
  | indexError
  | typeError (msg : String)
  | keyError (key : String)
  | attributeError (msg : String)
  | unboundLocalError (name : String)
  | stopIteration
  deriving DecidableEq

/-- Insert with python `dict` semantics: replace the binding when the key
is present, append otherwise. -/
def dictInsert (d : List (String × Int)) (k : String) (v : Int) :
    List (String × Int) :=
  match d with
  | [] => [(k, v)]
  | (k', v') :: rest =>
      if k' = k then (k, v) :: rest else (k', v') :: dictInsert rest k v

/-- Python `d.update(u)`: insert every binding of `u` into `d` in order. -/
def dictUpdate (d u : List (String × Int)) : List (String × Int) :=
  u.foldl (fun acc kv => dictInsert acc kv.1 kv.2) d

/-- Python `d[k]` / `d.get(k)`: the first binding of `k`. -/
def dictGet (d : List (String × Int)) (k : String) : Option Int :=
  match d with
  | [] => none
  | (k', v') :: rest => if k' = k then some v' else dictGet rest k

/-- Embedding of the custom autodiff operator
`SLBaseTFModel.fuse_op` (decorated with `tf.custom_gradient`):

    def fuse_op(x, y):
        def grad(upstream):
            return upstream * y, upstream * y
        return x, grad

The result is the forward value paired with the gradient function that the
autodiff engine calls with the upstream gradient. -/
def fuse_op (x y : Tensor) : Tensor × (Tensor → Tensor × Tensor) :=
  let grad := fun upstream => (elemMul upstream y, elemMul upstream y)
  (x, grad)

/-- Input to the base network: either a bare tensor (a stripped singleton
tuple, `data_x[0]`) or a tuple of tensors. -/
inductive DataX where
  | single (t : Tensor)
  | tuple (ts : List Tensor)
  deriving DecidableEq

/-- Meaning of line 293: `data_x = data_x[0] if isinstance(data_x, Tuple)
and len(data_x) == 1 else data_x`. -/
def stripSingleton (ts : List Tensor) : DataX :=
  match ts with
  | [t] => DataX.single t
  | other => DataX.tuple other

/-- Negative python indexing `l[-k]` on a list: defined when `k ≤ len(l)`,
otherwise an IndexError (modelled by `none`). -/
def pyGetNeg (l : List Tensor) (k : Nat) : Option Tensor :=
  if k ≤ l.length then l.get? (l.length - k) else none

/-- Python slicing `l[:-k]`: everything but the last `k` elements (the
empty list when `k ≥ len(l)`). -/
def pyDropLast (l : List Tensor) (k : Nat) : List Tensor :=
  l.take (l.length - k)

/-- The injected compression strategy, kept abstract: a sparsity flag
(`isinstance(compressor, SparseCompressor)`), a compressing map on a single
ndarray (used by `base_forward`) and a decompressing map on a gradient list
(used by `base_backward`). -/
structure CompressorModel where
  isSparse : Bool
  compressT : Tensor → Tensor
  decompressG : List Tensor → List Tensor

/-- One batch produced by `next()` on a staged iterator: the tuple of
arrays `(x..., [y], [s_w])`.  A batch that is a bare tensor is represented
as a one-element tuple; `stripSingleton` makes the two indistinguishable to
the base network, exactly as in the python code. -/
def Batch : Type := List Tensor

instance : DecidableEq Batch := by
  unfold Batch
  infer_instance

/-- The mutable fields of `SLBaseTFModel` (constructor lines 106-139).
The base network is modelled as an abstract function from its input to the
produced embedding; the gradient tape is modelled by an identifier
(`tape`), with `next_tape` supplying the identity of the next
`tf.GradientTape()` object so that overwriting is observable.  A staged
iterator is the list of its remaining batches. -/
structure SLState where
  model_base : Option (DataX → TFData)
  model_fuse_present : Bool
  embedding_dp : Option (Tensor → Tensor)
  label_dp : Option (Tensor → Tensor)
  compressor : Option CompressorModel
  train_set : Option (List Batch)
  eval_set : Option (List Batch)
  tape : Option Nat
  next_tape : Nat
  h : Option TFData
  train_x : Option (List Tensor)
  train_y : Option Tensor
  eval_x : Option (List Tensor)
  eval_y : Option Tensor
  kwargs : List (String × Int)
  has_y : Bool
  has_s_w : Bool
  train_sample_weight : Option Tensor
  eval_sample_weight : Option Tensor
  logs : Option (List (String × Int))
  epoch_logs : Option (List (String × Int))
  training_logs : Option (List (String × Int))

/-- Embedding of `SLBaseTFModel.init_data` (lines 149-153): clear both
stages' stored batch features, labels and sample weights. -/
def init_data (st : SLState) : SLState :=
  { st with
    train_x := none, train_y := none,
    eval_x := none, eval_y := none,
    train_sample_weight := none, eval_sample_weight := none }

/-- Embedding-level differential privacy applied inside
`_base_forward_internal` (lines 231-237): map the hook over a list
embedding, apply it directly to a single one. -/
def apply_embedding_dp (edp : Option (Tensor → Tensor)) (h : TFData) :
    TFData :=
  match edp, h with
  | none, h => h
  | some f, TFData.list l => TFData.list (l.map f)
  | some f, TFData.tensor t => TFData.tensor (f t)

/-- Common tail of `base_forward` (lines 292-308), entered with the state
already holding the advanced iterator and the stored label/weight: strip a
singleton tuple, run the base network (plus embedding privacy) inside a
freshly created tape, store tape and embedding, and return the embedding —
compressed when requested (`self.compressor.compress(self.h.numpy())`;
`.numpy()` on a python list raises AttributeError). -/
def base_forward_tail (st1 : SLState) (base_fn : DataX → TFData)
    (data_x : List Tensor) (compress : Bool) :
    Except PyError (SLState × TFData) :=
  let dx := stripSingleton data_x
  let h1 := apply_embedding_dp st1.embedding_dp (base_fn dx)
  let st2 := { st1 with
    tape := some st1.next_tape,
    next_tape := st1.next_tape + 1,
    h := some h1 }
  if compress then
    match st2.compressor with
    | none =>
        Except.error (PyError.exceptionMsg
          "can not find compressor when compress data in base_forward")
    | some c =>
        match h1 with
        | TFData.tensor t => Except.ok (st2, TFData.tensor (c.compressT t))
        | TFData.list _ =>
            Except.error (PyError.attributeError
              "list object has no attribute numpy")
  else Except.ok (st2, h1)

/-- Embedding of `SLBaseTFModel.base_forward` (lines 239-308).  The stage
dispatch pulls the next batch from the named iterator (TypeError when the
iterator was never built, StopIteration when it is exhausted), splits off
the label/weight suffix according to the `has_y`/`has_s_w` flags with
python negative indexing, applies label differential privacy, then runs
the shared tail.  Note that the field `tape` is never read: a new tape is
installed unconditionally. -/
def base_forward (st0 : SLState) (stage : String) (compress : Bool) :
    Except PyError (SLState × TFData) :=
  match st0.model_base with
  | none =>
      Except.error (PyError.assertionError
        "Base model cannot be none, please give model define or load a trained model")
  | some base_fn =>
    let st := init_data st0
    if stage = "train" then
      match st.train_set with
      | none => Except.error (PyError.typeError "NoneType object is not an iterator")
      | some batches =>
        match batches with
        | [] => Except.error PyError.stopIteration
        | train_data :: rest =>
          let st := { st with train_set := some rest }
          if st.has_y then
            if st.has_s_w then
              match pyGetNeg train_data 2, pyGetNeg train_data 1 with
              | some ty, some sw =>
                  let data_x := pyDropLast train_data 2
                  let ty := match st.label_dp with
                    | some dp => dp ty
                    | none => ty
                  base_forward_tail
                    { st with train_y := some ty, train_sample_weight := some sw }
                    base_fn data_x compress
              | _, _ => Except.error PyError.indexError
            else
              match pyGetNeg train_data 1 with
              | some ty =>
                  let data_x := pyDropLast train_data 1
                  let ty := match st.label_dp with
                    | some dp => dp ty
                    | none => ty
                  base_forward_tail { st with train_y := some ty }
                    base_fn data_x compress
              | none => Except.error PyError.indexError
          else
            base_forward_tail st base_fn train_data compress
    else if stage = "eval" then
      match st.eval_set with
      | none => Except.error (PyError.typeError "NoneType object is not an iterator")
      | some batches =>
        match batches with
        | [] => Except.error PyError.stopIteration
        | eval_data :: rest =>
          let st := { st with eval_set := some rest }
          if st.has_y then
            if st.has_s_w then
              match pyGetNeg eval_data 2, pyGetNeg eval_data 1 with
              | some ey, some sw =>
                  let data_x := pyDropLast eval_data 2
                  let ey := match st.label_dp with
                    | some dp => dp ey
                    | none => ey
                  base_forward_tail
                    { st with eval_y := some ey, eval_sample_weight := some sw }
                    base_fn data_x compress
              | _, _ => Except.error PyError.indexError
            else
              match pyGetNeg eval_data 1 with
              | some ey =>
                  let data_x := pyDropLast eval_data 1
                  let ey := match st.label_dp with
                    | some dp => dp ey
                    | none => ey
                  base_forward_tail { st with eval_y := some ey }
                    base_fn data_x compress
              | none => Except.error PyError.indexError
          else
            base_forward_tail st base_fn eval_data compress
    else Except.error (PyError.exceptionMsg "invalid stage")

/-- A python object passed as the first operand of `fuse_op` inside
`base_backward`: `self.h[i]` is a scalar when `self.h` is a single tensor,
a tensor when `self.h` is a list, and `self.h` itself (single or list) in
the broadcast branch. -/
inductive PyTen where
  | scalar (v : Int)
  | tensor (t : Tensor)
  | tlist (l : List Tensor)
  deriving DecidableEq

/-- Python `len(h)` on the stored embedding: length of the list, or the
(first-dimension) length of the single tensor. -/
def tfLen (h : TFData) : Nat :=
  match h with
  | TFData.tensor t => t.length
  | TFData.list l => l.length

/-- View the stored embedding as the python value handed to `fuse_op` in
the broadcast branch `fuse_op(self.h, gradient)`. -/
def tfToPyTen (h : TFData) : PyTen :=
  match h with
  | TFData.tensor t => PyTen.tensor t
  | TFData.list l => PyTen.tlist l

/-- One recorded application `fuse_op(first, second)` made inside the tape
by `base_backward`: the pair of its two operands. -/
def FusedPair : Type := PyTen × Tensor

instance : DecidableEq FusedPair := by
  unfold FusedPair
  infer_instance

/-- The positional-pairing loop of `base_backward` (lines 333-335):
`for i in range(len(gradient)): fuse_op(self.h[i], gradient[i])`.  It is
only entered under the guard `len(gradient) == len(self.h)`, where the
indexed loop coincides with `zipWith`. -/
def pairHiddens (h : TFData) (gradient : List Tensor) : List FusedPair :=
  match h with
  | TFData.tensor t => List.zipWith (fun x g => (PyTen.scalar x, g)) t gradient
  | TFData.list l => List.zipWith (fun x g => (PyTen.tensor x, g)) l gradient

/-- Embedding of `SLBaseTFModel.base_backward` (lines 315-348).  The
decompression branch mirrors lines 325-331; entering `with self.tape`
raises AttributeError when no tape is open; `len(self.h)` raises TypeError
when no embedding is stored.  The recorded `fuse_op` applications are
returned so the pairing can be observed; the actual
`tape.gradient`/optimizer application acts on framework-internal weights
that are not fields of this state.  Lines 345-348 clear the tape, the
stored embedding and `kwargs`.  The decompression branch is split out as
`decompress_gradient`. -/
def decompress_gradient (compress : Bool) (comp : Option CompressorModel)
    (g : List Tensor) : Except PyError (List Tensor) :=
  match compress, comp with
  | false, _ => Except.ok g
  | true, none =>
      Except.error (PyError.exceptionMsg
        "can not find compressor when decompress data in base_backward")
  | true, some c => Except.ok (c.decompressG g)

def base_backward (st : SLState) (gradient0 : List Tensor)
    (compress : Bool) : Except PyError (SLState × List FusedPair) :=
  match decompress_gradient compress st.compressor gradient0 with
  | Except.error e => Except.error e
  | Except.ok gradient =>
    match st.tape with
    | none => Except.error (PyError.attributeError "NoneType object has no enter")
    | some _ =>
      match st.h with
      | none => Except.error (PyError.typeError "object of type NoneType has no len")
      | some h =>
        let st' := { st with tape := none, h := none, kwargs := [] }
        if gradient.length = tfLen h then
          Except.ok (st', pairHiddens h gradient)
        else
          match gradient.get? 0 with
          | none => Except.error PyError.indexError
          | some g0 => Except.ok (st', [(tfToPyTen h, g0)])

/-- Embedding of `SLBaseTFModel.on_train_batch_end` (lines 384-387): after
the step assertion, snapshot the step log as the epoch log (the callback
call itself is an external side effect). -/
def on_train_batch_end (st : SLState) (step : Option Nat) :
    Except PyError SLState :=
  match step with
  | none => Except.error (PyError.assertionError "Step cannot be none")
  | some _ => Except.ok { st with epoch_logs := st.logs }

/-- Rename every validation log key with the `val_` tag, the meaning of
`{'val_' + name: val for name, val in val_logs.items()}` (line 390). -/
def tagVal (v : List (String × Int)) : List (String × Int) :=
  v.map (fun p => ("val_" ++ p.1, p.2))

/-- Embedding of `SLBaseTFModel.on_validation` (lines 389-391): merge the
tagged validation logs into the current epoch log.  When no epoch log
exists, `None.update` raises AttributeError. -/
def on_validation (st : SLState) (val_logs : List (String × Int)) :
    Except PyError SLState :=
  match st.epoch_logs with
  | none => Except.error (PyError.attributeError "NoneType object has no update")
  | some e => Except.ok { st with epoch_logs := some (dictUpdate e (tagVal val_logs)) }

/-- Embedding of `SLBaseTFModel.on_epoch_end` (lines 393-397): publish the
epoch log as the training log and return it (the callback call is an
external side effect; the `epoch` number is only forwarded to it). -/
def on_epoch_end (st : SLState) :
    SLState × Option (List (String × Int)) :=
  ({ st with training_logs := st.epoch_logs }, st.epoch_logs)

/-- A sequence of `on_validation` calls, folded over the state. -/
def runValidations (st : SLState) (vals : List (List (String × Int))) :
    Except PyError SLState :=
  match vals with
  | [] => Except.ok st
  | v :: rest =>
    match on_validation st v with
    | Except.error e => Except.error e
    | Except.ok st' => runValidations st' rest

/-- Zero/nonzero mask `(d != 0) * 1` captured per input by `fuse_net`
before decompression.  On a single array it is elementwise; on a python
list the comparison `list != 0` is `True` and the product the scalar `1`,
modelled as the singleton tensor. -/
def npMask (d : TFData) : Tensor :=
  match d with
  | TFData.tensor t => t.map (fun v => if v = 0 then 0 else 1)
  | TFData.list _ => [1]

/-- The flattening loop of `fuse_net` (lines 438-445): a party whose
embedding is itself a list contributes every element. -/
def flattenHiddens (hs : List TFData) : List Tensor :=
  match hs with
  | [] => []
  | TFData.tensor t :: rest => t :: flattenHiddens rest
  | TFData.list l :: rest => l ++ flattenHiddens rest

/-- Embedding of the compression-relevant dataflow of
`SLBaseTFModel.fuse_net` (lines 411-469).  The fuse network internals
(`_fuse_net_internal`: forward, loss, optimizer step, metric update) are
abstracted as `gradFn`, mapping the flattened hiddens to the per-input
gradient list; `decompressFn`/`compressFn` are the injected compressor
maps and `isSparse` its `SparseCompressor` subtype test.  The local
variable `fuse_sparse_masks` is bound only in the sparsity-aware branch
(lines 428-431); `none` models the unbound local, so reading it on the
return path (line 462, `if fuse_sparse_masks:`) raises
UnboundLocalError.  A non-empty captured mask list must match the gradient
list in length (lines 463-465) and is then applied elementwise
(lines 466-468); an empty captured mask list is falsy and skips
re-masking. -/
def fuse_net_model (compress hasCompressor isSparse : Bool)
    (decompressFn : List TFData → List TFData)
    (gradFn : List Tensor → List Tensor)
    (compressFn : List Tensor → List Tensor)
    (hidden_features : List TFData) : Except PyError (List Tensor) :=
  match
    (if compress then
      if hasCompressor then
        let masks :=
          if isSparse then some (hidden_features.map npMask) else none
        Except.ok (masks, decompressFn hidden_features)
      else
        Except.error (PyError.exceptionMsg
          "can not find compressor when decompress data in fuse_net")
    else Except.ok (none, hidden_features) :
      Except PyError (Option (List Tensor) × List TFData)) with
  | Except.error e => Except.error e
  | Except.ok (fuse_sparse_masks, hf) =>
    let hiddens := flattenHiddens hf
    let gradient := gradFn hiddens
    if compress then
      let gradient := compressFn gradient
      match fuse_sparse_masks with
      | none => Except.error (PyError.unboundLocalError "fuse_sparse_masks")
      | some masks =>
        if masks.isEmpty then Except.ok gradient
        else if masks.length = gradient.length then
          Except.ok (List.zipWith (fun d m => elemMul d m) gradient masks)
        else
          Except.error (PyError.assertionError
            "length of fuse_sparse_masks and gradient mismatch")
    else Except.ok gradient

/-- A numpy array seen by `build_dataset`: only its shape matters to the
control flow under study. -/
structure NpArr where
  shape : List Nat
  deriving DecidableEq

/-- Observable outcome of `build_dataset` (lines 161-225): the recorded
`has_y`/`has_s_w` flags, the final list `x` handed to the dataset
constructor (features, then label, then sample weight when recorded), and
the stage slot the iterator was stored to. -/
structure BuildDatasetResult where
  has_y : Bool
  has_s_w : Bool
  tensors : List (Option NpArr)
  stage_slot : String
  deriving DecidableEq

/-- Embedding of `SLBaseTFModel.build_dataset` (lines 161-225) for the
default `dataset_builder = None` path.  Line 187 is
`assert len(x) > 0 or x[0] is not None`: when `x` is non-empty the `or`
short-circuits and the assertion passes whatever the features are; when
`x` is empty the right operand evaluates `x[0]` and raises IndexError
before the assertion can fail.  The label is appended when present with a
non-empty shape, and the sample weight only inside that branch.  An
unknown stage raises the illegal-argument exception. -/
def build_dataset_model (x : List (Option NpArr)) (y s_w : Option NpArr)
    (stage : String) : Except PyError BuildDatasetResult :=
  match
    (if x.length > 0 then Except.ok ()
    else
      match x.get? 0 with
      | none => Except.error PyError.indexError
      | some x0 =>
        if x0.isSome then Except.ok ()
        else
          Except.error (PyError.assertionError
            "X can not be None, please check") : Except PyError Unit) with
  | Except.error e => Except.error e
  | Except.ok _ =>
    let hasY : Bool := match y with
      | some a => a.shape.length > 0
      | none => false
    let hasSW : Bool := hasY && (match s_w with
      | some a => a.shape.length > 0
      | none => false)
    let xs := x ++ (if hasY then [y] else [])
      ++ (if hasSW then [s_w] else [])
    if stage = "train" then
      Except.ok ⟨hasY, hasSW, xs, "train"⟩
    else if stage = "eval" then
      Except.ok ⟨hasY, hasSW, xs, "eval"⟩
    else Except.error (PyError.exceptionMsg "Illegal argument stage")

/-- One `(x, y)` batch yielded by a torch dataloader. -/
def Batch2 : Type := Tensor × Tensor

instance : DecidableEq Batch2 := by
  unfold Batch2
  infer_instance

/-- The value of the `ModelPartition._dataiter` attribute.  It starts as a
dict mapping each stage name to that stage's iterator (modelled by its
remaining batches), but line 656 (`self._dataiter = iter(...)`) replaces
the whole attribute with a single iterator. -/
inductive DataIterAttr where
  | dict (m : List (String × List Batch2))
  | iter (remaining : List Batch2)
  deriving DecidableEq

/-- First binding of a key in an association list (python dict lookup for
the dataloader/dataiter dicts). -/
def alistGet (m : List (String × List Batch2)) (k : String) :
    Option (List Batch2) :=
  match m with
  | [] => none
  | (k', v) :: rest => if k' = k then some v else alistGet rest k

/-- Replace the binding of a key in an association list (python
`m[k] = v`). -/
def alistSet (m : List (String × List Batch2)) (k : String)
    (v : List Batch2) : List (String × List Batch2) :=
  match m with
  | [] => [(k, v)]
  | (k', v') :: rest =>
      if k' = k then (k, v) :: rest else (k', v') :: alistSet rest k v

/-- The iterator state of a `ModelPartition` (constructor lines 641-650):
the per-stage dataloaders (each modelled by its full list of batches,
restartable at will) and the `_dataiter` attribute. -/
structure MPState where
  dataloader : List (String × List Batch2)
  dataiter : DataIterAttr

/-- The `ModelPartition` constructor (lines 645-650): one fresh iterator
per dataloader, stored in a dict under the same keys. -/
def mpStart (dataloader : List (String × List Batch2)) : MPState :=
  ⟨dataloader, DataIterAttr.dict dataloader⟩

/-- Embedding of `ModelPartition.get_one_batch` (lines 652-658).
`next(self._dataiter[name])` subscripts `_dataiter`: a TypeError when a
previous restart replaced the dict by a bare iterator, a KeyError for an
unknown stage.  On StopIteration the handler rebuilds an iterator from the
dataloader, assigns it to the *whole* `_dataiter` attribute (line 656) and
takes its first batch — propagating StopIteration when the dataloader
itself is empty. -/
def get_one_batch (st : MPState) (name : String) :
    Except PyError (Batch2 × MPState) :=
  match st.dataiter with
  | DataIterAttr.iter _ =>
      Except.error (PyError.typeError "iterator object is not subscriptable")
  | DataIterAttr.dict m =>
    match alistGet m name with
    | none => Except.error (PyError.keyError name)
    | some remaining =>
      match remaining with
      | b :: rest =>
          Except.ok (b, { st with dataiter := DataIterAttr.dict (alistSet m name rest) })
      | [] =>
        match alistGet st.dataloader name with
        | none => Except.error (PyError.keyError name)
        | some full =>
          match full with
          | [] => Except.error PyError.stopIteration
          | b :: rest =>
              Except.ok (b, { st with dataiter := DataIterAttr.iter rest })

/-- Whether an `Except` computation returned without raising. -/
def isOkB {ε α : Type _} (e : Except ε α) : Bool :=
  match e with
  | Except.ok _ => true
  | Except.error _ => false

/-- A simple concrete base network used by concrete runs: concatenate the
input features into one embedding tensor. -/
def baseNetCat : DataX → TFData :=
  fun dx =>
    match dx with
    | DataX.single t => TFData.tensor t
    | DataX.tuple ts => TFData.tensor (ts.foldl (fun acc t => List.append acc t) [])

/-- The state produced by the `SLBaseTFModel` constructor
(lines 106-139) with no privacy strategy and no compressor: every
iterator, tape, stored tensor and log starts out `None`. -/
def slStart (mb : Option (DataX → TFData)) : SLState :=
  { model_base := mb
    model_fuse_present := true
    embedding_dp := none
    label_dp := none
    compressor := none
    train_set := none
    eval_set := none
    tape := none
    next_tape := 0
    h := none
    train_x := none
    train_y := none
    eval_x := none
    eval_y := none
    kwargs := []
    has_y := false
    has_s_w := false
    train_sample_weight := none
    eval_sample_weight := none
    logs := none
    epoch_logs := none
    training_logs := none }

/-- C1: the custom operator `fuse_op` is identity in the forward direction
and scaled in the backward direction: `fuse_op x y` forwards `x` unchanged,
and its backward function maps any upstream gradient `u` to the pair
`(u*y, u*y)` — the gradient with respect to both the embedding operand and
the external gradient operand equals upstream times the external
gradient. -/
theorem fuse_op_identity_forward_scaled_backward (x y u : Tensor) :
    (fuse_op x y).1 = x ∧
    ((fuse_op x y).2 u).1 = elemMul u y ∧
    ((fuse_op x y).2 u).2 = elemMul u y := by
  refine ⟨rfl, rfl, rfl⟩

/-- C5: evaluating `fuse_net` with `compress` set and a configured
compressor that is *not* sparsity-aware does not return the compressed
gradients unmasked, as the specification says: the return path reads the
local variable `fuse_sparse_masks`, which was only assigned in the
sparsity-aware branch, so the call raises UnboundLocalError. -/
theorem fuse_net_nonsparse_unbound_local :
    fuse_net_model true true false id id id
        [TFData.tensor [1, 2], TFData.tensor [0, 3]] =
      Except.error (PyError.unboundLocalError "fuse_sparse_masks") := by
  rfl

/-- The torch dataloaders of a concrete one-stage partition: the `train`
stage has a single batch `([1], [2])`. -/
def c7loader : List (String × List Batch2) :=
  [("train", [(([1] : Tensor), ([2] : Tensor))])]

/-- C7: batch exhaustion is not transparently survivable.  On the
one-batch partition the first call returns the batch and the second call
(exhaustion) restarts and returns the batch, but the restart assigned the
new iterator to the whole `_dataiter` attribute, so the third call
subscripts an iterator and raises TypeError instead of returning a
batch. -/
theorem get_one_batch_breaks_after_restart :
    (Except.bind (get_one_batch (mpStart c7loader) "train") (fun p =>
      Except.bind (get_one_batch p.2 "train") (fun q =>
        get_one_batch q.2 "train"))) =
      Except.error (PyError.typeError "iterator object is not subscriptable") := by
  rfl

/-- C8: a `build_dataset` call with no feature tensor does not fail with
the documented assertion (`EmptyInput`): the assert condition
`len(x) > 0 or x[0] is not None` short-circuits into evaluating `x[0]` on
the empty tuple, raising IndexError, while a call whose only feature is
`None` passes the assertion entirely. -/
theorem build_dataset_empty_input_wrong_error :
    build_dataset_model [] none none "train" = Except.error PyError.indexError ∧
    isOkB (build_dataset_model [none] none none "train") = true := by
  exact ⟨rfl, rfl⟩

/-- C3: when the stored embedding is a list of `N` tensors, a successful
`base_backward` pairs an incoming gradient list of the same length `N`
elementwise and positionally with the embedding; an incoming gradient list
of length `1 ≠ N` is broadcast: its single element is fused against the
whole embedding list. -/
theorem base_backward_pairing (st : SLState) (tp : Nat) (hl : List Tensor)
    (gradient : List Tensor)
    (htape : st.tape = some tp) (hh : st.h = some (TFData.list hl)) :
    (gradient.length = hl.length →
      base_backward st gradient false =
        Except.ok ({ st with tape := none, h := none, kwargs := [] },
          List.zipWith (fun x g => (PyTen.tensor x, g)) hl gradient)) ∧
    (∀ g0, gradient = [g0] → gradient.length ≠ hl.length →
      base_backward st gradient false =
        Except.ok ({ st with tape := none, h := none, kwargs := [] },
          [(PyTen.tlist hl, g0)])) := by
  constructor
  · intro hlen
    unfold base_backward
    rw [htape, hh]
    simp only [decompress_gradient, tfLen]
    rw [if_pos hlen]
    rfl
  · intro g0 hg hne
    subst hg
    unfold base_backward
    rw [htape, hh]
    simp only [decompress_gradient, tfLen]
    rw [if_neg hne]
    rfl

/-- Concrete state for the C3 witness run: an open tape and a stored
two-tensor embedding list. -/
def c3_state : SLState :=
  { slStart (some baseNetCat) with
    tape := some 0, h := some (TFData.list [[1], [2]]) }

/-- Witness for C3: on the concrete state the equal-length case pairs the
two gradients positionally with the two embeddings. -/
theorem base_backward_pairing_witness :
    base_backward c3_state [[3], [4]] false =
      Except.ok ({ c3_state with tape := none, h := none, kwargs := [] },
        List.zipWith (fun x g => (PyTen.tensor x, g))
          ([[1], [2]] : List Tensor) ([[3], [4]] : List Tensor)) := by
  exact (base_backward_pairing c3_state 0 [[1], [2]] [[3], [4]] rfl rfl).1 rfl

/-- C6: every successful `base_backward` releases the tape and the stored
embedding: the `tape` and `h` fields of the resulting state are both
cleared, so no tape remains open. -/
theorem base_backward_clears_tape_and_embedding (st : SLState)
    (gradient : List Tensor) (compress : Bool) (st' : SLState)
    (pairs : List FusedPair)
    (hrun : base_backward st gradient compress = Except.ok (st', pairs)) :
    st'.tape = none ∧ st'.h = none := by
  unfold base_backward at hrun
  split at hrun
  · exact absurd hrun (by simp)
  · split at hrun
    · exact absurd hrun (by simp)
    · split at hrun
      · exact absurd hrun (by simp)
      · split at hrun
        · cases hrun
          exact ⟨rfl, rfl⟩
        · split at hrun
          · exact absurd hrun (by simp)
          · cases hrun
            exact ⟨rfl, rfl⟩

/-- Helper: a successful `base_forward_tail` installs precisely the fresh
tape `st1.next_tape` and bumps the counter, and leaves the eval-stage
stored data and the train sample weight untouched. -/
theorem bf_tail_effects (st1 : SLState) (f : DataX → TFData)
    (dx : List Tensor) (c : Bool) (st2 : SLState) (o : TFData)
    (h : base_forward_tail st1 f dx c = Except.ok (st2, o)) :
    st2.tape = some st1.next_tape ∧ st2.next_tape = st1.next_tape + 1 ∧
    st2.eval_x = st1.eval_x ∧ st2.eval_y = st1.eval_y ∧
    st2.eval_sample_weight = st1.eval_sample_weight ∧
    st2.train_sample_weight = st1.train_sample_weight := by
  simp only [base_forward_tail] at h
  split at h
  · split at h
    · exact absurd h (by simp)
    · split at h
      · cases h
        exact ⟨rfl, rfl, rfl, rfl, rfl, rfl⟩
      · exact absurd h (by simp)
  · cases h
    exact ⟨rfl, rfl, rfl, rfl, rfl, rfl⟩

/-- Concrete state for the C2 counterexample run: a base model and a
two-batch train iterator, no labels. -/
def c2_state : SLState :=
  { slStart (some baseNetCat) with
    train_set := some [[[1]], [[2]]] }

/-- The tape field of the state resulting from a `base_forward` run. -/
def tapeAfter (e : Except PyError (SLState × TFData)) : Option Nat :=
  match e with
  | Except.ok (s, _) => s.tape
  | Except.error _ => none

/-- C2 counterexample: on the concrete partition the first `base_forward`
leaves a tape open (id 0), yet a second `base_forward` issued before any
`base_backward` does not fail with any error — contradicting the claimed
`TapeAlreadyOpen` failure — and silently installs a fresh tape (id 1). -/
theorem base_forward_second_call_succeeds :
    tapeAfter (base_forward c2_state "train" false) = some 0 ∧
    isOkB (Except.bind (base_forward c2_state "train" false)
      (fun p => base_forward p.1 "train" false)) = true ∧
    tapeAfter (Except.bind (base_forward c2_state "train" false)
      (fun p => base_forward p.1 "train" false)) = some 1 := by
  exact ⟨rfl, rfl, rfl⟩

/-- C2 amended: `base_forward` never reads the tape field, so a second
call while a tape is open behaves exactly as a call with no open tape — it
does not fail with `TapeAlreadyOpen`; it silently overwrites.  Every
successful call (whether or not a tape was open, hence also right after
`base_backward` cleared it) installs the fresh tape. -/
theorem base_forward_ignores_open_tape (st : SLState) (t t' : Option Nat)
    (stage : String) (compress : Bool) :
    base_forward { st with tape := t } stage compress =
      base_forward { st with tape := t' } stage compress ∧
    (∀ st' out, base_forward st stage compress = Except.ok (st', out) →
      st'.tape = some st.next_tape) := by
  constructor
  · rfl
  · intro st' out hrun
    simp only [base_forward] at hrun
    repeat'
      first
      | exact (bf_tail_effects _ _ _ _ _ _ hrun).1
      | exact absurd hrun (by simp)
      | split at hrun

/-- The state after the first concrete `base_forward` run on
`c2_state`: one batch consumed, tape id 0 open, embedding stored. -/
def c2_state1 : SLState :=
  { c2_state with
    train_set := some [[[2]]], tape := some 0, next_tape := 1,
    h := some (TFData.tensor [1]) }

/-- Witness for C2 amended: on the concrete partition, a call with tape 7
open equals a call with no tape open, and the concrete successful run
installed the fresh tape. -/
theorem base_forward_ignores_open_tape_witness :
    base_forward { c2_state with tape := some 7 } "train" false =
      base_forward { c2_state with tape := none } "train" false ∧
    c2_state1.tape = some c2_state.next_tape := by
  exact ⟨(base_forward_ignores_open_tape c2_state (some 7) none "train" false).1,
    (base_forward_ignores_open_tape c2_state (some 7) none "train" false).2
      c2_state1 (TFData.tensor [1]) rfl⟩

/-- Concrete state for the C9 counterexample: a train batch is available
and the eval stage holds a stored label and sample weight. -/
def c9_state : SLState :=
  { slStart (some baseNetCat) with
    train_set := some [[[1]]],
    eval_y := some [5], eval_sample_weight := some [2] }

/-- The stored eval label after a `base_forward` run (a sentinel value on
error, which the concrete run does not hit). -/
def evalYAfter (e : Except PyError (SLState × TFData)) : Option Tensor :=
  match e with
  | Except.ok (s, _) => s.eval_y
  | Except.error _ => some [99]

/-- The stored eval sample weight after a `base_forward` run (a sentinel
value on error, which the concrete run does not hit). -/
def evalSWAfter (e : Except PyError (SLState × TFData)) : Option Tensor :=
  match e with
  | Except.ok (s, _) => s.eval_sample_weight
  | Except.error _ => some [99]

/-- C9 counterexample: a successful `base_forward` for the `train` stage
does not leave the eval stage's stored label and sample weight unchanged —
on the concrete state it erases both (`init_data` clears every stage, not
only the called one). -/
theorem base_forward_train_clears_eval :
    c9_state.eval_y = some [5] ∧
    c9_state.eval_sample_weight = some [2] ∧
    evalYAfter (base_forward c9_state "train" false) = none ∧
    evalSWAfter (base_forward c9_state "train" false) = none := by
  exact ⟨rfl, rfl, rfl, rfl⟩

/-- C9 amended: `base_forward` for the `train` stage clears and rewrites
the train-stage scratch, and clears — rather than preserves — the other
stage's stored data: after any successful train-stage call the eval
features, label and sample weight are all `None`. -/
theorem base_forward_train_resets_eval_fields (st : SLState)
    (compress : Bool) (st' : SLState) (out : TFData)
    (hrun : base_forward st "train" compress = Except.ok (st', out)) :
    st'.eval_x = none ∧ st'.eval_y = none ∧ st'.eval_sample_weight = none := by
  simp only [base_forward, reduceIte] at hrun
  repeat'
    first
    | exact ⟨(bf_tail_effects _ _ _ _ _ _ hrun).2.2.1,
        (bf_tail_effects _ _ _ _ _ _ hrun).2.2.2.1,
        (bf_tail_effects _ _ _ _ _ _ hrun).2.2.2.2.1⟩
    | exact absurd hrun (by simp)
    | split at hrun

/-- Concrete state for the C9 witness run. -/
def c9w_state : SLState :=
  { slStart (some baseNetCat) with
    train_set := some [[[3]]],
    eval_y := some [7], eval_sample_weight := some [8] }

/-- The state after the witness `base_forward` run on `c9w_state`. -/
def c9w_state1 : SLState :=
  { c9w_state with
    train_set := some [], eval_y := none, eval_sample_weight := none,
    tape := some 0, next_tape := 1, h := some (TFData.tensor [3]) }

/-- Witness for C9 amended: the concrete successful train-stage run ends
with all eval-stage scratch cleared. -/
theorem base_forward_train_resets_eval_fields_witness :
    c9w_state1.eval_x = none ∧ c9w_state1.eval_y = none ∧
    c9w_state1.eval_sample_weight = none := by
  exact base_forward_train_resets_eval_fields c9w_state false c9w_state1
    (TFData.tensor [3]) rfl

/-- Concrete state for the C6 witness run: an open tape and a stored
single-tensor embedding. -/
def c6_state : SLState :=
  { slStart (some baseNetCat) with
    tape := some 3, h := some (TFData.tensor [5, 6]) }

/-- Witness for C6: after the concrete successful `base_backward` run the
tape and embedding fields are cleared. -/
theorem base_backward_clears_witness :
    ({ c6_state with tape := none, h := none, kwargs := [] } : SLState).tape = none ∧
    ({ c6_state with tape := none, h := none, kwargs := [] } : SLState).h = none := by
  exact
    base_backward_clears_tape_and_embedding c6_state [[7], [8]] false
      { c6_state with tape := none, h := none, kwargs := [] }
      [(PyTen.scalar 5, [7]), (PyTen.scalar 6, [8])] rfl

/-- C10: a sample weight is only recorded when a label is also supplied.
For every `build_dataset` call with `s_w` present but `y` absent (or with
an empty shape), the `has_s_w` flag stays false and the sample weight is
not appended to the tensor list feeding the constructed iterator; and any
successful train-stage `base_forward` on a partition whose `has_s_w` flag
is false ends with no stored train sample weight. -/
theorem build_dataset_drops_sw_without_y
    (x : List (Option NpArr)) (w : NpArr) (y : Option NpArr) (stage : String)
    (r : BuildDatasetResult)
    (hy : y = none ∨ ∃ a, y = some a ∧ a.shape = [])
    (hrun : build_dataset_model x y (some w) stage = Except.ok r) :
    (r.has_s_w = false ∧ r.has_y = false ∧ r.tensors = x) ∧
    (∀ st st' out compress, st.has_s_w = false →
      base_forward st "train" compress = Except.ok (st', out) →
      st'.train_sample_weight = none) := by
  constructor
  · rcases hy with hy | ⟨a, hy, ha⟩
    · subst hy
      simp only [build_dataset_model, Bool.false_and, Bool.false_eq_true,
        if_false, List.append_nil] at hrun
      split at hrun
      · exact absurd hrun (by simp)
      · split at hrun
        · cases hrun
          exact ⟨rfl, rfl, rfl⟩
        · split at hrun
          · cases hrun
            exact ⟨rfl, rfl, rfl⟩
          · exact absurd hrun (by simp)
    · subst hy
      simp [build_dataset_model, ha] at hrun
      split at hrun
      · exact absurd hrun (by simp)
      · split at hrun
        · cases hrun
          exact ⟨rfl, rfl, rfl⟩
        · split at hrun
          · cases hrun
            exact ⟨rfl, rfl, rfl⟩
          · exact absurd hrun (by simp)
  · intro st st' out compress hsw hrun
    simp only [base_forward, init_data, hsw, Bool.false_eq_true, if_false,
      reduceIte] at hrun
    repeat'
      first
      | exact (bf_tail_effects _ _ _ _ _ _ hrun).2.2.2.2.2
      | exact absurd hrun (by simp)
      | split at hrun

/-- Witness for C10: a concrete call with one feature, a sample weight and
no label records no sample weight and keeps only the feature. -/
theorem build_dataset_drops_sw_without_y_witness :
    (⟨false, false, [some ⟨[4]⟩], "train"⟩ : BuildDatasetResult).has_s_w = false ∧
    (⟨false, false, [some ⟨[4]⟩], "train"⟩ : BuildDatasetResult).has_y = false ∧
    (⟨false, false, [some ⟨[4]⟩], "train"⟩ : BuildDatasetResult).tensors =
      [some (⟨[4]⟩ : NpArr)] := by
  exact
    (build_dataset_drops_sw_without_y [some ⟨[4]⟩] ⟨[3]⟩ none "train"
      ⟨false, false, [some ⟨[4]⟩], "train"⟩ (Or.inl rfl) rfl).1

/-- Lookup after a python-dict insert: the inserted key maps to the new
value, every other key is unaffected. -/
theorem dictGet_dictInsert (d : List (String × Int)) (k q : String) (v : Int) :
    dictGet (dictInsert d k v) q = if k = q then some v else dictGet d q := by
  induction d with
  | nil => rfl
  | cons p rest ih =>
    obtain ⟨pk, pv⟩ := p
    by_cases hpk : pk = k
    · subst hpk
      by_cases hq : pk = q
      · subst hq
        simp [dictInsert, dictGet]
      · simp [dictInsert, dictGet, hq]
    · by_cases hq : k = q
      · subst hq
        have hne : pk ≠ k := hpk
        simp [dictInsert, dictGet, hpk, hne, ih]
      · by_cases hpq : pk = q
        · subst hpq
          simp [dictInsert, dictGet, hpk, hq, ih]
        · simp [dictInsert, dictGet, hpk, hq, hpq, ih]

/-- A `dict.update` whose update holds none of the key `q` leaves the
binding of `q` unchanged. -/
theorem dictGet_dictUpdate_of_not_mem (u : List (String × Int)) :
    ∀ d q, (∀ p ∈ u, p.1 ≠ q) →
      dictGet (dictUpdate d u) q = dictGet d q := by
  induction u with
  | nil => intro d q _; rfl
  | cons p rest ih =>
    intro d q h
    have h1 : p.1 ≠ q := h p (List.mem_cons_self p rest)
    calc dictGet (dictUpdate d (p :: rest)) q
        = dictGet (dictUpdate (dictInsert d p.1 p.2) rest) q := rfl
      _ = dictGet (dictInsert d p.1 p.2) q :=
          ih (dictInsert d p.1 p.2) q (fun x hx => h x (List.mem_cons_of_mem p hx))
      _ = dictGet d q := by rw [dictGet_dictInsert, if_neg h1]

/-- A `dict.update` never removes a key: present keys stay present. -/
theorem dictGet_dictUpdate_isSome (u : List (String × Int)) :
    ∀ d q, (dictGet d q).isSome = true →
      (dictGet (dictUpdate d u) q).isSome = true := by
  induction u with
  | nil => intro d q h; exact h
  | cons p rest ih =>
    intro d q h
    refine ih (dictInsert d p.1 p.2) q ?_
    rw [dictGet_dictInsert]
    by_cases hpq : p.1 = q
    · simp [hpq]
    · simp [hpq, h]

/-- Every key of the update list is present after the `dict.update`. -/
theorem dictGet_dictUpdate_mem_isSome (u : List (String × Int)) :
    ∀ d q, (∃ p ∈ u, p.1 = q) →
      (dictGet (dictUpdate d u) q).isSome = true := by
  induction u with
  | nil =>
    rintro d q ⟨p, hp, _⟩
    cases hp
  | cons p rest ih =>
    rintro d q ⟨x, hx, hxq⟩
    rcases List.mem_cons.mp hx with h | h
    · subst h
      refine dictGet_dictUpdate_isSome rest (dictInsert d x.1 x.2) q ?_
      rw [dictGet_dictInsert, hxq, if_pos rfl]
      rfl
    · exact ih (dictInsert d p.1 p.2) q ⟨x, h, hxq⟩

/-- The epoch log produced by a sequence of validation merges, starting
from the snapshot `e` taken by `on_train_batch_end`. -/
def applyValidations (e : List (String × Int))
    (vals : List (List (String × Int))) : List (String × Int) :=
  vals.foldl (fun acc v => dictUpdate acc (tagVal v)) e

/-- Presence of a key survives any sequence of validation merges. -/
theorem applyValidations_mono (vals : List (List (String × Int))) :
    ∀ e q, (dictGet e q).isSome = true →
      (dictGet (applyValidations e vals) q).isSome = true := by
  induction vals with
  | nil => exact fun e q h => h
  | cons v rest ih =>
    intro e q h
    exact ih (dictUpdate e (tagVal v)) q
      (dictGet_dictUpdate_isSome (tagVal v) e q h)

/-- Validation merges only write `val_`-tagged keys, so the binding of any
key not of that form is untouched. -/
theorem applyValidations_preserves_nonval (vals : List (List (String × Int))) :
    ∀ e q, (∀ name, q ≠ "val_" ++ name) →
      dictGet (applyValidations e vals) q = dictGet e q := by
  induction vals with
  | nil => intro e q _; rfl
  | cons v rest ih =>
    intro e q h
    have step : dictGet (dictUpdate e (tagVal v)) q = dictGet e q := by
      apply dictGet_dictUpdate_of_not_mem
      intro p hp
      obtain ⟨x, _, hx⟩ := List.mem_map.mp hp
      intro hpq
      exact h x.1 (by rw [← hpq, ← hx])
    calc dictGet (applyValidations e (v :: rest)) q
        = dictGet (applyValidations (dictUpdate e (tagVal v)) rest) q := rfl
      _ = dictGet (dictUpdate e (tagVal v)) q := ih _ q h
      _ = dictGet e q := step

/-- Every key of every validation call in the sequence is present, tagged
with `val_`, in the final epoch log. -/
theorem applyValidations_val_present (vals : List (List (String × Int))) :
    ∀ e, ∀ v ∈ vals, ∀ p ∈ v,
      (dictGet (applyValidations e vals) ("val_" ++ p.1)).isSome = true := by
  induction vals with
  | nil =>
    intro e v hv
    cases hv
  | cons w rest ih =>
    intro e v hv p hp
    rcases List.mem_cons.mp hv with h | h
    · subst h
      refine applyValidations_mono rest (dictUpdate e (tagVal v)) _ ?_
      apply dictGet_dictUpdate_mem_isSome
      exact ⟨("val_" ++ p.1, p.2), List.mem_map.mpr ⟨p, hp, rfl⟩, rfl⟩
    · exact ih (dictUpdate e (tagVal w)) v h p hp

/-- Running the validation sequence succeeds whenever an epoch log exists,
and produces exactly the folded validation merges. -/
theorem runValidations_epoch_logs (vals : List (List (String × Int))) :
    ∀ (st : SLState) (e : List (String × Int)), st.epoch_logs = some e →
      ∃ st2, runValidations st vals = Except.ok st2 ∧
        st2.epoch_logs = some (applyValidations e vals) := by
  induction vals with
  | nil =>
    intro st e he
    exact ⟨st, rfl, by simpa [applyValidations] using he⟩
  | cons v rest ih =>
    intro st e he
    have hstep : on_validation st v =
        Except.ok { st with epoch_logs := some (dictUpdate e (tagVal v)) } := by
      unfold on_validation
      rw [he]
    obtain ⟨st2, h1, h2⟩ :=
      ih { st with epoch_logs := some (dictUpdate e (tagVal v)) }
        (dictUpdate e (tagVal v)) rfl
    refine ⟨st2, ?_, by simpa [applyValidations] using h2⟩
    unfold runValidations
    rw [hstep]
    exact h1

/-- Concrete state for the C4 counterexample: the step log written by the
training batch already holds a `val_`-tagged key. -/
def c4_state : SLState :=
  { slStart (some baseNetCat) with logs := some [("val_a", 1)] }

/-- The epoch log returned by `on_epoch_end` after a lifecycle run. -/
def epochLogOf (e : Except PyError SLState) : Option (List (String × Int)) :=
  match e with
  | Except.ok s => (on_epoch_end s).2
  | Except.error _ => none

/-- C4 counterexample: the key-value pair `(val_a, 1)` written by the last
`on_train_batch_end` is not contained in the log returned by
`on_epoch_end` — the intervening `on_validation` call rebinding `val_a`
overwrote it with `2`. -/
theorem on_epoch_end_drops_train_pair :
    c4_state.logs = some [("val_a", 1)] ∧
    epochLogOf (Except.bind (on_train_batch_end c4_state (some 0))
      (fun s => on_validation s [("a", 2)])) = some [("val_a", 2)] := by
  exact ⟨rfl, rfl⟩

/-- C4 amended: for a lifecycle run `on_train_batch_end`, then any
sequence of `on_validation` calls, then `on_epoch_end`, the returned log
keeps every key-value pair of the last `on_train_batch_end` whose key is
not of the form `val_` + name (so validation keys never clobber
non-`val_` keys), and holds every key of every `on_validation` call
tagged with `val_`; only an existing `val_`-tagged binding can be
overwritten. -/
theorem epoch_end_log_contents (st : SLState) (d : List (String × Int))
    (step : Nat) (vals : List (List (String × Int))) (st1 st2 : SLState)
    (hd : st.logs = some d)
    (h1 : on_train_batch_end st (some step) = Except.ok st1)
    (h2 : runValidations st1 vals = Except.ok st2) :
    ∃ finalLog, (on_epoch_end st2).2 = some finalLog ∧
      (∀ q v, (∀ name, q ≠ "val_" ++ name) →
        dictGet d q = some v → dictGet finalLog q = some v) ∧
      (∀ v ∈ vals, ∀ p ∈ v,
        (dictGet finalLog ("val_" ++ p.1)).isSome = true) := by
  simp only [on_train_batch_end, Except.ok.injEq] at h1
  obtain ⟨st2', hrun, hlog⟩ :=
    runValidations_epoch_logs vals st1 d (by rw [← h1, hd])
  rw [h2] at hrun
  cases hrun
  refine ⟨applyValidations d vals, by simpa [on_epoch_end] using hlog, ?_, ?_⟩
  · intro q v hq hv
    rw [applyValidations_preserves_nonval vals d q hq, hv]
  · exact applyValidations_val_present vals d

/-- Concrete state for the C4 witness: a train metric in the step log. -/
def c4w_state : SLState :=
  { slStart (some baseNetCat) with logs := some [("train_loss", 5)] }

/-- The state after the witness `on_train_batch_end`. -/
def c4w_state1 : SLState :=
  { c4w_state with epoch_logs := some [("train_loss", 5)] }

/-- The state after the witness `on_validation` sequence. -/
def c4w_state2 : SLState :=
  { c4w_state1 with epoch_logs := some [("train_loss", 5), ("val_acc", 3)] }

/-- Witness for C4 amended: on the concrete run the non-`val_` train pair
survives and the validation key is present tagged. -/
theorem epoch_end_log_contents_witness :
    ∃ finalLog, (on_epoch_end c4w_state2).2 = some finalLog ∧
      dictGet finalLog "train_loss" = some 5 ∧
      (dictGet finalLog "val_acc").isSome = true := by
  obtain ⟨f, hf, hpres, hval⟩ :=
    epoch_end_log_contents c4w_state [("train_loss", 5)] 1 [[("acc", 3)]]
      c4w_state1 c4w_state2 rfl rfl rfl
  refine ⟨f, hf, ?_, ?_⟩
  · refine hpres "train_loss" 5 ?_ rfl
    intro name h
    have := congrArg String.data h
    simp [String.data_append] at this
  · exact hval [("acc", 3)] (by simp) ("acc", 3) (by simp)
